import Mathlib

/-!
Shallow embedding of `src/dropcomplete.ts` (class `Dropcomplete`), an
autocomplete dropdown widget.  JavaScript objects are modelled as follows:

* An `Item` (`DropcompleteItem`) is compared by reference identity in the
  source (`===`); we model each object reference by a distinct `ref : Nat`
  so that decidable equality of `Item` is exactly reference equality.
  `label` and `group` are the optional string fields of the record.
* `undefined` for object/string-valued variables is `Option.none`.
* The DOM container's children are modelled as a `List Node`; geometry
  (`updatePosition`, `calculatePosition`, `updateScroll`) only mutates CSS
  style and scroll offsets and is not part of any claim, so it is omitted
  from the state.
* Being attached to `document.body` is the boolean `attached`
  (`containerDisplayed()` in the source).
-/

structure Item where
  ref : Nat
  label : Option String := none
  group : Option String := none
deriving DecidableEq, Repr

/-- DOM nodes the widget creates inside its container: group headers, item
rows (carrying the rendered text and whether the `selected` CSS class was
added) and the empty-message div.  Every `Node.item` has a click listener
attached in the source, so item nodes are exactly the clickable elements. -/
inductive Node where
  | group (text : String)
  | item (it : Item) (text : String) (selectedMark : Bool)
  | empty (msg : String)
deriving DecidableEq, Repr

/-- Construction settings (`DropcompleteSettings`): optional fields are
`Option`, mirroring the `?:` TypeScript fields. -/
structure Settings where
  minLength : Option Nat := none
  emptyMsg : Option String := none
  showOnFocus : Option Bool := none
  preventSubmit : Option Bool := none
deriving Repr

/-- The widget's configuration fields after the constructor has applied
defaults (`this.minLen`, `this.emptyMsg`, `this.showOnFocus`,
`this.preventSubmit`). -/
structure Config where
  minLen : Nat
  emptyMsg : Option String
  showOnFocus : Option Bool
  preventSubmit : Bool
deriving Repr

/-- Constructor defaulting: `settings.minLength ?? 2`,
`settings.preventSubmit || false`; `emptyMsg` and `showOnFocus` are stored
as given. -/
def configOf (st : Settings) : Config :=
  { minLen := st.minLength.getD 2
    emptyMsg := st.emptyMsg
    showOnFocus := st.showOnFocus
    preventSubmit := st.preventSubmit.getD false }

/-- Mutable widget state: `this.items`, `this.inputValue`, `this.selected`,
`this.keypressCounter`, plus the container's DOM status. -/
structure WState where
  items : List Item
  inputValue : String
  selected : Option Item
  keypressCounter : Nat
  attached : Bool
  containerChildren : List Node
deriving DecidableEq, Repr

/-- State right after the constructor ran: empty items, empty input value,
counter 0, container created but not attached. -/
def initialState : WState :=
  { items := [], inputValue := "", selected := none, keypressCounter := 0
    attached := false, containerChildren := [] }

/-- Method `clear()`: bumps `keypressCounter` (invalidating pending fetches),
empties `items`, resets `inputValue` and `selected`, and detaches the
container.  Note the container's children are NOT removed by `clear`
(`detach` only unlinks the container from its parent). -/
def clear (s : WState) : WState :=
  { s with keypressCounter := s.keypressCounter + 1
           items := []
           inputValue := ""
           selected := none
           attached := false }

/-- Method `attach()`: appends the container to `document.body` when it has
no parent; idempotent on the `attached` flag. -/
def attach (s : WState) : WState := { s with attached := true }

/-- Default item renderer (method `render`): always creates a div whose text
is `item.label || ""`, and returns it — it never returns `undefined`. -/
def render (it : Item) : Option String :=
  some (match it.label with
        | some l => if l = "" then "" else l
        | none => "")

/-- Default group renderer (method `renderGroup`): a div whose text is the
group name; never `undefined`. -/
def renderGroup (groupName : String) : Option String :=
  some groupName

/-- JavaScript truthiness of `item.group : string | undefined`: truthy
exactly when present and non-empty. -/
def groupTruthy : Option String → Bool
  | none => false
  | some g => g ≠ ""

/-- Nodes produced for one item in `update`'s loop: `const div =
this.render(item); if (div) { ... fragment.appendChild(div); }` — the div
gets a click listener and, when `item === this.selected`, the `selected`
class. -/
def itemNodes (it : Item) (sel : Option Item) : List Node :=
  match render it with
  | some txt => [Node.item it txt (decide (sel = some it))]
  | none => []

/-- The loop body of `update()` building the document fragment:
`let prevGroup = "#9?$"; for (const item of this.items) { if (item.group &&
item.group !== prevGroup) { prevGroup = item.group; const groupDiv =
this.renderGroup(item.group); if (groupDiv) { ... } } ... }`.
`prevGroup` is updated whenever the truthy-and-different test passes,
independently of whether `renderGroup` produced a div. -/
def buildFragment : List Item → Option Item → String → List Node
  | [], _, _ => []
  | it :: rest, sel, prevGroup =>
    if groupTruthy it.group ∧ it.group.getD "" ≠ prevGroup then
      (match renderGroup (it.group.getD "") with
       | some txt => [Node.group txt]
       | none => []) ++ itemNodes it sel ++ buildFragment rest sel (it.group.getD "")
    else
      itemNodes it sel ++ buildFragment rest sel prevGroup

/-- JavaScript truthiness of `this.emptyMsg : string | undefined`. -/
def emptyMsgTruthy : Option String → Bool
  | none => false
  | some m => m ≠ ""

/-- Method `update()`: removes all container children, appends the freshly
built fragment; when `items` is empty either appends the empty-message div
(if `this.emptyMsg` is truthy) or calls `clear()` and returns; finally
attaches the container (positioning and scrolling mutate only geometry). -/
def update (cfg : Config) (s : WState) : WState :=
  let s1 := { s with containerChildren := buildFragment s.items s.selected "#9?$" }
  if s1.items.length < 1 then
    if emptyMsgTruthy cfg.emptyMsg then
      attach { s1 with
               containerChildren := s1.containerChildren ++ [Node.empty (cfg.emptyMsg.getD "")] }
    else
      clear s1
  else
    attach s1

/-- The descending loop of `selectPrev`: `for (let i = this.items.length - 1;
i > 0; i--) { if (this.selected === this.items[i] || i === 1)
{ this.selected = this.items[i - 1]; break; } }`.  Out-of-range indexing
`this.items[i]` yields `undefined`, i.e. `none`. -/
def selectPrevLoop (items : List Item) (sel : Option Item) : Nat → Option Item
  | 0 => sel
  | i + 1 =>
    if sel = items[i + 1]? ∨ i + 1 = 1 then items[i]?
    else selectPrevLoop items sel i

/-- Method `selectPrev()`. -/
def selectPrev (s : WState) : WState :=
  if s.items.length < 1 then
    { s with selected := none }
  else if s.selected = s.items[0]? then
    { s with selected := s.items[s.items.length - 1]? }
  else
    { s with selected := selectPrevLoop s.items s.selected (s.items.length - 1) }

/-- The ascending loop of `selectNext`, with an explicit structural fuel
equal to the number of remaining iterations (`items.length - 1 - i`), so
that the function reduces by kernel computation.  The body is the loop
`for (let i = 0; i < (this.items.length - 1); i++) { if (this.selected ===
this.items[i]) { this.selected = this.items[i + 1]; break; } }`. -/
def selectNextLoopGo (items : List Item) (sel : Option Item) : Nat → Nat → Option Item
  | 0, _ => sel
  | fuel + 1, i =>
    if i < items.length - 1 then
      if sel = items[i]? then items[i + 1]?
      else selectNextLoopGo items sel fuel (i + 1)
    else sel

/-- The ascending loop of `selectNext` entered at index `i`: fuel
`items.length - 1 - i` bounds the remaining iterations, and the loop guard
`i < items.length - 1` in `selectNextLoopGo` exits the loop exactly as in
the source. -/
def selectNextLoop (items : List Item) (sel : Option Item) (i : Nat) : Option Item :=
  selectNextLoopGo items sel (items.length - 1 - i) i

/-- Method `selectNext()`: note the first `if` does not return, so on an
empty list the second branch still runs and reads `this.items[-1]` and
`this.items[0]` (both `undefined`). -/
def selectNext (s : WState) : WState :=
  let s1 := if s.items.length < 1 then { s with selected := none } else s
  if s1.selected = none ∨ s1.selected = s1.items[s1.items.length - 1]? then
    { s1 with selected := s1.items[0]? }
  else
    { s1 with selected := selectNextLoop s1.items s1.selected 0 }

/-- Data captured by one `startFetch` call and handed to the caller's
`fetch(text, update, isFocus, cursorPos)` callback: the saved value of
`keypressCounter` closed over by the result callback, plus the arguments
given to `fetch`. -/
structure FetchRequest where
  saved : Nat
  text : String
  isFocus : Bool
  cursorPos : Nat
deriving DecidableEq, Repr

/-- Method `startFetch(isFocus)`: increments `keypressCounter`, saves it,
and either invokes the caller's `fetch` (returning `some` request, the
fetch's arguments) when `inputText.length >= this.minLen || isFocus`, or
calls `clear()` and does not fetch. -/
def startFetch (cfg : Config) (isFocus : Bool) (inputText : String) (cursorPos : Nat)
    (s : WState) : WState × Option FetchRequest :=
  let s1 := { s with keypressCounter := s.keypressCounter + 1 }
  let saved := s1.keypressCounter
  if cfg.minLen ≤ inputText.length ∨ isFocus = true then
    (s1, some { saved := saved, text := inputText, isFocus := isFocus, cursorPos := cursorPos })
  else
    (clear s1, none)

/-- The result callback closure created inside `startFetch` and passed to the
caller's `fetch`: `(items) => { if (this.keypressCounter ===
savedKeypressCounter && items) { this.items = items; this.inputValue =
inputText; this.selected = (items.length < 1) ? undefined : items[0];
this.update(); } }`.  The argument is `T[] | false`; `false` is `none`
(an empty array is truthy in JavaScript and is NOT the sentinel). -/
def resultCallback (cfg : Config) (req : FetchRequest) (res : Option (List Item))
    (s : WState) : WState :=
  match res with
  | none => s
  | some l =>
    if s.keypressCounter = req.saved then
      update cfg { s with
                   items := l
                   inputValue := req.text
                   selected := if l.length < 1 then none else l[0]? }
    else s

/-!
Event-listener model.  `addEventListener`/`removeEventListener` use the
identity of the listener function.  The constructor registers six fresh
arrow-function wrappers (`event => this.keydownEventHandler(event)` and
friends); `destroy()` instead passes the raw prototype methods
(`this.keydownEventHandler`, ...) to `removeEventListener`.  A wrapper and
the method it wraps are distinct function objects, so we give each its own
constructor in `ListenerId`.
-/

inductive EventName where
  | keydown | keyup | blur | focus | resize | scroll
deriving DecidableEq, Repr

inductive ListenerId where
  | ctorKeydown | ctorKeyup | ctorBlur | ctorFocus | ctorResize | ctorScroll
  | methodKeydown | methodKeyup | methodBlur | methodFocus | methodResize | methodScroll
deriving DecidableEq, Repr

/-- The six registrations performed by the constructor (input `keydown`,
`keyup`, `blur`, `focus`; window `resize`; document `scroll`), each with a
fresh arrow-function wrapper. -/
def constructorListeners : List (EventName × ListenerId) :=
  [(EventName.keydown, ListenerId.ctorKeydown),
   (EventName.keyup, ListenerId.ctorKeyup),
   (EventName.blur, ListenerId.ctorBlur),
   (EventName.focus, ListenerId.ctorFocus),
   (EventName.resize, ListenerId.ctorResize),
   (EventName.scroll, ListenerId.ctorScroll)]

/-- DOM `removeEventListener(type, listener)`: removes the registration
whose event name and listener function identity both match. -/
def removeEventListener (ls : List (EventName × ListenerId)) (e : EventName)
    (f : ListenerId) : List (EventName × ListenerId) :=
  ls.filter (fun p => ¬(p.1 = e ∧ p.2 = f))

/-- The six `removeEventListener` calls made by `destroy()`, which pass the
prototype methods, not the wrappers the constructor registered. -/
def destroyRemovals (ls : List (EventName × ListenerId)) : List (EventName × ListenerId) :=
  removeEventListener
    (removeEventListener
      (removeEventListener
        (removeEventListener
          (removeEventListener
            (removeEventListener ls EventName.keydown ListenerId.methodKeydown)
            EventName.keyup ListenerId.methodKeyup)
          EventName.focus ListenerId.methodFocus)
        EventName.blur ListenerId.methodBlur)
      EventName.resize ListenerId.methodResize)
    EventName.scroll ListenerId.methodScroll

/-- Method `destroy()`: the six removals followed by `clear()`. -/
def destroy (s : WState) (ls : List (EventName × ListenerId)) :
    WState × List (EventName × ListenerId) :=
  (clear s, destroyRemovals ls)

/-- The key names ignored by `keyupEventHandler` (early returns, including
the separate `"Fn"` check). -/
def keyupIgnores : List String :=
  ["ArrowUp", "Enter", "Escape", "ArrowRight", "ArrowLeft", "Shift",
   "Control", "Alt", "CapsLock", "Meta", "Tab"]

/-- Method `keyupEventHandler(event)`: returns the new state and the fetch
request when the caller's `fetch` was invoked (`none` when it was not). -/
def keyupEventHandler (cfg : Config) (key : String) (inputText : String)
    (cursorPos : Nat) (s : WState) : WState × Option FetchRequest :=
  if key ∈ keyupIgnores then (s, none)
  else if key = "Fn" then (s, none)
  else if key = "ArrowDown" ∧ s.attached = true then (s, none)
  else startFetch cfg false inputText cursorPos s

/-- Dispatch of a DOM `keyup` event on the input: the handler runs exactly
when the wrapper registered by the constructor is still in the listener
list. -/
def dispatchKeyup (ls : List (EventName × ListenerId)) (cfg : Config) (key : String)
    (inputText : String) (cursorPos : Nat) (s : WState) : WState × Option FetchRequest :=
  if (EventName.keyup, ListenerId.ctorKeyup) ∈ ls then
    keyupEventHandler cfg key inputText cursorPos s
  else (s, none)

/-- Per-item record of whether `update()`'s loop emits a group header before
the item: `true` exactly when `item.group` is truthy (present and
non-empty) and differs from the tracked `prevGroup`, which starts at the
sentinel `"#9?$"` and is reassigned only when the test passes. -/
def codeHeaderFlags : List Item → String → List Bool
  | [], _ => []
  | it :: rest, prevGroup =>
    if groupTruthy it.group ∧ it.group.getD "" ≠ prevGroup then
      true :: codeHeaderFlags rest (it.group.getD "")
    else
      false :: codeHeaderFlags rest prevGroup

/-- Modelled from the claim C3's words (not from the source): a group header
is emitted before an item exactly when that item's group differs from the
previous item's group, where the tracked initial value is a sentinel
distinct from every real group value — here the outer `none`, while
`some g` records the previous item's group field `g` verbatim. -/
def specHeaderFlags : List Item → Option (Option String) → List Bool
  | [], _ => []
  | it :: rest, prev =>
    decide (some it.group ≠ prev) :: specHeaderFlags rest (some it.group)

/-- Is a node a group header? -/
def isGroupNode : Node → Bool
  | Node.group _ => true
  | _ => false

/-- Is a node an item row (clickable element)? -/
def isItemNode : Node → Bool
  | Node.item _ _ _ => true
  | _ => false

/-- Is a node the empty-message div? -/
def isEmptyNode : Node → Bool
  | Node.empty _ => true
  | _ => false

/-- Number of group headers in a fragment. -/
def groupNodeCount (ns : List Node) : Nat := (ns.filter isGroupNode).length

/-- Number of item rows in a fragment. -/
def itemNodeCount (ns : List Node) : Nat := (ns.filter isItemNode).length

/-- The invariant of spec section 3: `selected`, if present, is an element
of `items` (by reference identity). -/
def SelInv (s : WState) : Prop := ∀ x : Item, s.selected = some x → x ∈ s.items

/-- Concrete item fixtures (distinct `ref` values model distinct object
references) used by witnesses and counterexamples. -/
def itemA : Item := { ref := 0, label := some "a" }

/-- Second fixture item. -/
def itemB : Item := { ref := 1, label := some "b" }

/-- The spec's grouped example `[{label:"a",group:"G1"},
{label:"b",group:"G1"}, {label:"c",group:"G2"}]`. -/
def exA : Item := { ref := 10, label := some "a", group := some "G1" }

/-- Second item of the spec's grouped example. -/
def exB : Item := { ref := 11, label := some "b", group := some "G1" }

/-- Third item of the spec's grouped example. -/
def exC : Item := { ref := 12, label := some "c", group := some "G2" }

/-- The spec's grouped example list. -/
def exampleItems : List Item := [exA, exB, exC]

/-- Items whose groups are "G" then "": consecutive items with different
groups, the second group being the empty string. -/
def cexGroupItems : List Item :=
  [{ ref := 20, label := some "a", group := some "G" },
   { ref := 21, label := some "b", group := some "" }]

/-- A widget state with two items and no selection. -/
def twoItemsNoSel : WState := { initialState with items := [itemA, itemB] }

/-- A widget state with one item and no selection. -/
def oneItemNoSel : WState := { initialState with items := [itemA] }

/-- A widget state with one item which is selected. -/
def oneItemSel : WState := { initialState with items := [itemA], selected := some itemA }

/-- A widget state whose items list contains the same object reference at
both ends (`[itemA, itemB, itemA]`), with the middle element selected. -/
def dupListSelB : WState :=
  { initialState with items := [itemA, itemB, itemA], selected := some itemB }

/-- A fetch request fixture. -/
def reqFix : FetchRequest := { saved := 5, text := "ab", isFocus := false, cursorPos := 2 }

/-!  Helper lemmas about the selection loops and the rendered fragment.  -/

theorem selectPrevLoop_eq_of_get (items : List Item) (sel : Option Item)
    (hnd : items.Nodup) :
    ∀ i k, sel = items[k]? → 1 ≤ k → k ≤ i → i ≤ items.length - 1 →
      selectPrevLoop items sel i = items[k - 1]? := by
  intro i
  induction i with
  | zero => intro k _ h1 h2 _; omega
  | succ i ih =>
    intro k hsel hk1 hki hi
    simp only [selectPrevLoop]
    by_cases hk : k = i + 1
    · subst hk
      rw [if_pos (Or.inl hsel)]
      congr 1
    · have hlt : i + 1 < items.length := by omega
      have hklt : k < items.length := by omega
      have hcond : ¬(sel = items[i + 1]? ∨ i + 1 = 1) := by
        rintro (h | h)
        · rw [hsel, List.getElem?_eq_getElem hklt, List.getElem?_eq_getElem hlt] at h
          exact hk (hnd.getElem_inj_iff.mp (Option.some_inj.mp h))
        · omega
      rw [if_neg hcond]
      exact ih k hsel hk1 (by omega) (by omega)

theorem selectPrevLoop_none (items : List Item) :
    ∀ i, 1 ≤ i → i ≤ items.length - 1 →
      selectPrevLoop items none i = items[0]? := by
  intro i
  induction i with
  | zero => intro h _; omega
  | succ i ih =>
    intro _ hi
    simp only [selectPrevLoop]
    by_cases h1 : i + 1 = 1
    · rw [if_pos (Or.inr h1)]
      have : i = 0 := by omega
      rw [this]
    · have hlt : i + 1 < items.length := by omega
      have hcond : ¬(none = items[i + 1]? ∨ i + 1 = 1) := by
        rintro (h | h)
        · rw [List.getElem?_eq_getElem hlt] at h
          exact Option.noConfusion h
        · exact h1 h
      rw [if_neg hcond]
      exact ih (by omega) (by omega)

theorem selectPrevLoop_mem (items : List Item) (sel : Option Item) :
    ∀ i, i < items.length →
      selectPrevLoop items sel i = sel ∨
        ∃ x ∈ items, selectPrevLoop items sel i = some x := by
  intro i
  induction i with
  | zero => intro _; exact Or.inl rfl
  | succ i ih =>
    intro hi
    simp only [selectPrevLoop]
    split
    · have hlt : i < items.length := by omega
      exact Or.inr ⟨items[i], List.getElem_mem hlt, by rw [List.getElem?_eq_getElem hlt]⟩
    · exact ih (by omega)

theorem selectNextLoopGo_eq_of_get (items : List Item) (sel : Option Item)
    (hnd : items.Nodup) :
    ∀ fuel i k, sel = items[k]? → i ≤ k → k < items.length - 1 →
      items.length - 1 - i ≤ fuel →
      selectNextLoopGo items sel fuel i = items[k + 1]? := by
  intro fuel
  induction fuel with
  | zero => intro i k _ hik hk hfuel; omega
  | succ fuel ih =>
    intro i k hsel hik hk hfuel
    simp only [selectNextLoopGo]
    have hilt : i < items.length - 1 := by omega
    rw [if_pos hilt]
    by_cases hkeq : i = k
    · subst hkeq
      rw [if_pos hsel]
    · have hklt : k < items.length := by omega
      have hiltl : i < items.length := by omega
      have hne : ¬sel = items[i]? := by
        intro h
        rw [hsel, List.getElem?_eq_getElem hklt, List.getElem?_eq_getElem hiltl] at h
        exact hkeq (hnd.getElem_inj_iff.mp (Option.some_inj.mp h)).symm
      rw [if_neg hne]
      exact ih (i + 1) k hsel (by omega) hk (by omega)

theorem selectNextLoopGo_mem (items : List Item) (sel : Option Item) :
    ∀ fuel i, selectNextLoopGo items sel fuel i = sel ∨
      ∃ x ∈ items, selectNextLoopGo items sel fuel i = some x := by
  intro fuel
  induction fuel with
  | zero => intro _; exact Or.inl rfl
  | succ fuel ih =>
    intro i
    simp only [selectNextLoopGo]
    split
    · split
      · rename_i hguard _
        have hlt : i + 1 < items.length := by omega
        exact Or.inr ⟨items[i + 1], List.getElem_mem hlt, by rw [List.getElem?_eq_getElem hlt]⟩
      · exact ih (i + 1)
    · exact Or.inl rfl

theorem groupNodeCount_append (xs ys : List Node) :
    groupNodeCount (xs ++ ys) = groupNodeCount xs + groupNodeCount ys := by
  simp [groupNodeCount, List.filter_append]

theorem itemNodeCount_append (xs ys : List Node) :
    itemNodeCount (xs ++ ys) = itemNodeCount xs + itemNodeCount ys := by
  simp [itemNodeCount, List.filter_append]

theorem groupNodeCount_buildFragment (sel : Option Item) :
    ∀ (items : List Item) (pg : String),
      groupNodeCount (buildFragment items sel pg) = (codeHeaderFlags items pg).count true := by
  intro items
  induction items with
  | nil => intro pg; rfl
  | cons it rest ih =>
    intro pg
    simp only [buildFragment, codeHeaderFlags]
    split
    · rw [groupNodeCount_append, groupNodeCount_append, ih]
      simp [groupNodeCount, renderGroup, itemNodes, render, isGroupNode, List.count_cons]
      omega
    · rw [groupNodeCount_append, ih]
      simp [groupNodeCount, itemNodes, render, isGroupNode, List.count_cons]

theorem itemNodeCount_buildFragment (sel : Option Item) :
    ∀ (items : List Item) (pg : String),
      itemNodeCount (buildFragment items sel pg) = items.length := by
  intro items
  induction items with
  | nil => intro pg; rfl
  | cons it rest ih =>
    intro pg
    simp only [buildFragment]
    split
    · rw [itemNodeCount_append, itemNodeCount_append, ih]
      simp [itemNodeCount, renderGroup, itemNodes, render, isItemNode]
      omega
    · rw [itemNodeCount_append, ih]
      simp [itemNodeCount, itemNodes, render, isItemNode]
      omega

theorem update_items_or_clear (cfg : Config) (s : WState) :
    (update cfg s).items = s.items ∧ (update cfg s).selected = s.selected ∨
      update cfg s = clear { s with containerChildren := buildFragment s.items s.selected "#9?$" } := by
  simp only [update, attach]
  split
  · split
    · exact Or.inl ⟨rfl, rfl⟩
    · exact Or.inr rfl
  · exact Or.inl ⟨rfl, rfl⟩

theorem selInv_update (cfg : Config) (s : WState) (h : SelInv s) : SelInv (update cfg s) := by
  rcases update_items_or_clear cfg s with ⟨hitems, hsel⟩ | hcl
  · intro x hx
    rw [hitems]
    exact h x (hsel ▸ hx)
  · intro x hx
    rw [hcl] at hx
    exact absurd hx (by simp [clear])

theorem mem_of_getElemOpt {l : List Item} {i : Nat} {a : Item} (h : l[i]? = some a) :
    a ∈ l := by
  rw [List.getElem?_eq_some] at h
  obtain ⟨hi, rfl⟩ := h
  exact List.getElem_mem hi

theorem selInv_clear (s : WState) : SelInv (clear s) := by
  intro x hx
  exact absurd hx (by simp [clear])

theorem selInv_selectNext (s : WState) (h : SelInv s) : SelInv (selectNext s) := by
  intro x hx
  by_cases hlen : s.items.length < 1
  · have hnil : s.items = [] := List.length_eq_zero.mp (by omega)
    simp [selectNext, hlen, hnil] at hx
  · simp only [selectNext, if_neg hlen] at hx ⊢
    by_cases hcond : s.selected = none ∨ s.selected = s.items[s.items.length - 1]?
    · rw [if_pos hcond] at hx ⊢
      simp only at hx ⊢
      exact mem_of_getElemOpt hx
    · rw [if_neg hcond] at hx ⊢
      simp only [selectNextLoop] at hx ⊢
      rcases selectNextLoopGo_mem s.items s.selected (s.items.length - 1 - 0) 0 with hres | ⟨y, hy, hres⟩
      · rw [hres] at hx
        exact h x hx
      · rw [hres] at hx
        cases hx
        exact hy

theorem selInv_selectPrev (s : WState) (h : SelInv s) : SelInv (selectPrev s) := by
  intro x hx
  by_cases hlen : s.items.length < 1
  · simp [selectPrev, hlen] at hx
  · simp only [selectPrev, if_neg hlen] at hx ⊢
    by_cases hcond : s.selected = s.items[0]?
    · rw [if_pos hcond] at hx ⊢
      simp only at hx ⊢
      exact mem_of_getElemOpt hx
    · rw [if_neg hcond] at hx ⊢
      simp only at hx ⊢
      rcases selectPrevLoop_mem s.items s.selected (s.items.length - 1) (by omega) with hres | ⟨y, hy, hres⟩
      · rw [hres] at hx
        exact h x hx
      · rw [hres] at hx
        cases hx
        exact hy

theorem selInv_resultCallback (cfg : Config) (req : FetchRequest) (res : Option (List Item))
    (s : WState) (h : SelInv s) : SelInv (resultCallback cfg req res s) := by
  rcases res with _ | l
  · exact h
  · simp only [resultCallback]
    split
    · apply selInv_update
      intro x hx
      simp only at hx ⊢
      split at hx
      · exact absurd hx (by simp)
      · exact mem_of_getElemOpt hx
    · exact h

theorem resultCallback_stale (cfg : Config) (req : FetchRequest) (res : Option (List Item))
    (s : WState) (h : s.keypressCounter ≠ req.saved ∨ res = none) :
    resultCallback cfg req res s = s := by
  rcases res with _ | l
  · rfl
  · rcases h with h | h
    · simp [resultCallback, h]
    · exact absurd h (by simp)

/-!  Claim theorems.  -/

/-- C1: only a fetch completion invoked while `keypressCounter` still equals
the `savedKeypressCounter` captured by the latest `startFetch` (and whose
argument is not the `false` sentinel) updates the widget state and
re-renders via `update`; a completion whose captured counter no longer
matches, or one passing the sentinel, leaves the state unchanged — also
along arbitrary sequences of such completions — and the request produced
by `startFetch` always captures the post-increment counter. -/
theorem epoch_guard_drops_stale_completions :
    (∀ (cfg : Config) (req : FetchRequest) (res : Option (List Item)) (s : WState),
        s.keypressCounter ≠ req.saved ∨ res = none →
        resultCallback cfg req res s = s) ∧
    (∀ (cfg : Config) (req : FetchRequest) (l : List Item) (s : WState),
        s.keypressCounter = req.saved →
        resultCallback cfg req (some l) s =
          update cfg { s with items := l, inputValue := req.text,
                              selected := if l.length < 1 then none else l[0]? }) ∧
    (∀ (cfg : Config) (f : Bool) (t : String) (c : Nat) (s : WState) (req : FetchRequest),
        (startFetch cfg f t c s).2 = some req →
        req.saved = (startFetch cfg f t c s).1.keypressCounter) ∧
    (∀ (cfg : Config) (s : WState) (cs : List (FetchRequest × Option (List Item))),
        (∀ c ∈ cs, c.1.saved ≠ s.keypressCounter ∨ c.2 = none) →
        cs.foldl (fun st c => resultCallback cfg c.1 c.2 st) s = s) := by
  refine ⟨?_, ?_, ?_, ?_⟩
  · exact fun cfg req res s h => resultCallback_stale cfg req res s h
  · intro cfg req l s h
    simp [resultCallback, h]
  · intro cfg f t c s req h
    by_cases hc : cfg.minLen ≤ t.length ∨ f = true
    · simp only [startFetch, if_pos hc] at h ⊢
      cases h
      rfl
    · simp only [startFetch, if_neg hc] at h
      exact absurd h (by simp)
  · intro cfg s cs
    induction cs with
    | nil => intro _; rfl
    | cons c cs ih =>
      intro h
      have hstale : resultCallback cfg c.1 c.2 s = s :=
        resultCallback_stale cfg c.1 c.2 s (by
          rcases h c (List.mem_cons_self c cs) with h0 | h0
          · exact Or.inl (fun he => h0 he.symm)
          · exact Or.inr h0)
      rw [List.foldl_cons, hstale]
      exact ih (fun d hd => h d (List.mem_cons_of_mem c hd))

/-- C1 witness: a completion carrying the `false` sentinel leaves a concrete
state unchanged. -/
theorem epoch_guard_drops_stale_completions_witness :
    resultCallback (configOf {}) reqFix none initialState = initialState :=
  epoch_guard_drops_stale_completions.1 (configOf {}) reqFix none initialState (Or.inr rfl)

/-- C2 (code bug): `destroy()` fails to remove the six listeners bound at
construction — the constructor registered fresh arrow-function wrappers but
`destroy` passes the distinct prototype-method references to
`removeEventListener`, so the listener list is unchanged — and a subsequent
`keyup` event (key "a", input text "ab" of length ≥ minLength 2) still runs
the handler and invokes the caller's fetch callback. -/
theorem destroy_leaves_listeners_active :
    destroyRemovals constructorListeners = constructorListeners ∧
    ((dispatchKeyup (destroy initialState constructorListeners).2 (configOf {}) "a" "ab" 2
        (destroy initialState constructorListeners).1).2).isSome = true := by
  exact ⟨by decide, by decide⟩

/-- C7: `startFetch` invokes the caller's fetch callback exactly when the
trigger is a focus event or the input text length reaches the configured
minimum (default 2, from `settings.minLength ?? 2`); otherwise it performs
`clear()` on the counter-incremented state, detaching any shown overlay. -/
theorem startFetch_minLength_gate :
    (∀ (cfg : Config) (f : Bool) (t : String) (c : Nat) (s : WState),
        ((startFetch cfg f t c s).2).isSome = true ↔ (f = true ∨ cfg.minLen ≤ t.length)) ∧
    (∀ (cfg : Config) (f : Bool) (t : String) (c : Nat) (s : WState),
        ¬(f = true ∨ cfg.minLen ≤ t.length) →
        (startFetch cfg f t c s).1
            = clear { s with keypressCounter := s.keypressCounter + 1 } ∧
          (startFetch cfg f t c s).1.attached = false ∧
          (startFetch cfg f t c s).1.items = []) ∧
    (configOf {}).minLen = 2 := by
  refine ⟨?_, ?_, rfl⟩
  · intro cfg f t c s
    constructor
    · intro hs
      by_contra hno
      have hc : ¬(cfg.minLen ≤ t.length ∨ f = true) := fun hh => hno hh.symm
      rw [show (startFetch cfg f t c s).2 = none from by simp [startFetch, if_neg hc]] at hs
      exact absurd hs (by simp)
    · intro hor
      have hc : cfg.minLen ≤ t.length ∨ f = true := hor.symm
      simp [startFetch, if_pos hc]
  · intro cfg f t c s h
    have hc : ¬(cfg.minLen ≤ t.length ∨ f = true) := fun hh => h hh.symm
    refine ⟨?_, ?_, ?_⟩ <;> simp [startFetch, if_neg hc, clear]

/-- C7 witness: with the default minimum length 2, a one-character non-focus
keystroke does not fetch and clears the state. -/
theorem startFetch_minLength_gate_witness :
    ((startFetch (configOf {}) false "a" 1 initialState).2).isSome = false ∧
    (startFetch (configOf {}) false "a" 1 initialState).1
      = clear { initialState with keypressCounter := initialState.keypressCounter + 1 } := by
  exact ⟨by decide,
    (startFetch_minLength_gate.2.1 (configOf {}) false "a" 1 initialState (by decide)).1⟩

/-- C10: both navigation operations are total on an empty items list — even
though `selectNext` reads `items[items.length - 1]` and `items[0]` at
out-of-range indices (yielding `undefined`), both terminate and leave no
selection, touching nothing else in the state. -/
theorem select_ops_total_on_empty (s : WState) (h : s.items = []) :
    selectNext s = { s with selected := none } ∧
    selectPrev s = { s with selected := none } := by
  obtain ⟨items, iv, sel, kc, att, cc⟩ := s
  simp only at h
  subst h
  constructor
  · rfl
  · rfl

/-- C10 witness: on the empty list with a (stale) selection both operations
reset the selection. -/
theorem select_ops_total_on_empty_witness :
    selectNext { initialState with selected := some itemA }
        = { { initialState with selected := some itemA } with selected := none } ∧
      selectPrev { initialState with selected := some itemA }
        = { { initialState with selected := some itemA } with selected := none } :=
  select_ops_total_on_empty { initialState with selected := some itemA } rfl

/-- C3 counterexample: for consecutive items with groups "G" then "", the
claim (formalized from its words by `specHeaderFlags`: a header before an
item exactly when its group differs from the previous item's group, with an
initial sentinel distinct from every real group value) demands two headers,
but `update`'s loop emits exactly one — the JavaScript truthiness test
`item.group &&` skips the empty-string group entirely. -/
theorem groupHeaders_claim_counterexample :
    groupNodeCount (buildFragment cexGroupItems none "#9?$") = 1 ∧
    (specHeaderFlags cexGroupItems none).count true = 2 := by
  exact ⟨by decide, by decide⟩

/-- C3 amended: a group header is emitted before an item exactly when the
item's group is present, non-empty, and different from the tracked
previous-group string (initialized to the sentinel `"#9?$"` and updated
only when that test passes), as recorded per item by `codeHeaderFlags`; on
the spec's example exactly two headers are emitted, "G1" before "a" and
"G2" before "c". -/
theorem groupHeaders_amended :
    (∀ (items : List Item) (sel : Option Item) (pg : String),
        groupNodeCount (buildFragment items sel pg) = (codeHeaderFlags items pg).count true) ∧
    buildFragment exampleItems none "#9?$" =
      [Node.group "G1", Node.item exA "a" false, Node.item exB "b" false,
       Node.group "G2", Node.item exC "c" false] := by
  exact ⟨fun items sel pg => groupNodeCount_buildFragment sel items pg, by decide⟩

/-- C6 counterexample: with `emptyMsg` configured as the empty string and an
empty items list, `render` leaves the overlay detached and shows no
informational element — the source tests `if (this.emptyMsg)`, which is
false for `""`, so a configured-but-empty message behaves as unconfigured. -/
theorem emptyMsg_empty_string_counterexample :
    ({ minLen := 2, emptyMsg := some "", showOnFocus := none,
       preventSubmit := false : Config }).emptyMsg ≠ none ∧
    (update { minLen := 2, emptyMsg := some "", showOnFocus := none,
              preventSubmit := false } initialState).attached = false ∧
    (update { minLen := 2, emptyMsg := some "", showOnFocus := none,
              preventSubmit := false } initialState).containerChildren = [] := by
  exact ⟨by decide, by decide, by decide⟩

/-- C6 amended: when `render` runs with an empty items list, a configured
NON-EMPTY `emptyMsg` yields an attached overlay containing exactly the one
informational element with that text; when `emptyMsg` is absent or the
empty string (falsy), all widget state is cleared and the overlay is left
detached, its children emptied. -/
theorem update_empty_items_spec (cfg : Config) (s : WState) (hempty : s.items = []) :
    (∀ m : String, cfg.emptyMsg = some m → m ≠ "" →
        update cfg s = attach { s with containerChildren := [Node.empty m] }) ∧
    (emptyMsgTruthy cfg.emptyMsg = false →
        update cfg s = clear { s with containerChildren := [] }) := by
  obtain ⟨items, iv, sel, kc, att, cc⟩ := s
  simp only at hempty
  subst hempty
  constructor
  · intro m hm hmne
    simp [update, buildFragment, emptyMsgTruthy, hm, hmne]
  · intro hfalsy
    simp [update, buildFragment, hfalsy]

/-- C6 witness: an empty result with `emptyMsg="No results"` attaches the
overlay with exactly one informational element carrying that text. -/
theorem update_empty_items_spec_witness :
    update { minLen := 2, emptyMsg := some "No results", showOnFocus := none,
             preventSubmit := false } initialState
      = attach { initialState with containerChildren := [Node.empty "No results"] } :=
  (update_empty_items_spec
      { minLen := 2, emptyMsg := some "No results", showOnFocus := none,
        preventSubmit := false } initialState rfl).1 "No results" rfl (by decide)

/-- C9: the default item renderer always returns an element — a div whose
text is the item's label, or empty text when the label is absent — never
`undefined`; consequently no item is skipped and the built fragment holds
exactly one clickable item element per entry of `items`. -/
theorem default_render_no_skip :
    (∀ it : Item, (render it).isSome = true) ∧
    (∀ it : Item, render it = some (it.label.getD "")) ∧
    (∀ (items : List Item) (sel : Option Item) (pg : String),
        itemNodeCount (buildFragment items sel pg) = items.length) := by
  refine ⟨fun it => rfl, ?_, fun items sel pg => itemNodeCount_buildFragment sel items pg⟩
  intro it
  rcases it with ⟨r, lab, g⟩
  rcases lab with _ | l
  · rfl
  · simp only [render, Option.getD]
    by_cases hl : l = "" <;> simp [hl]

/-- C4 counterexample: on the two-item list `[itemA, itemB]` with no current
selection, `selectPrev` selects the FIRST item rather than the last one the
claim demands — the descending loop's `i === 1` fallback assigns
`items[0]`. -/
theorem selectPrev_noSelection_counterexample :
    twoItemsNoSel.selected = none ∧
    twoItemsNoSel.items.getLast? = some itemB ∧
    (selectPrev twoItemsNoSel).selected = some itemA ∧
    itemA ≠ itemB := by
  exact ⟨rfl, by decide, by decide, by decide⟩

/-- C4 amended: on a duplicate-free items list, `selectPrev` selects the last
item when the current selection is the first item; selects the item
immediately before when the selection sits at a later index; with NO current
selection it selects the FIRST item when the list has at least two items
and leaves no selection when the list has exactly one item; on an empty
list it leaves no selection. -/
theorem selectPrev_spec (s : WState) (hnd : s.items.Nodup) :
    (s.items.length = 0 → selectPrev s = { s with selected := none }) ∧
    (0 < s.items.length → s.selected = s.items[0]? →
        (selectPrev s).selected = s.items[s.items.length - 1]?) ∧
    (∀ i : Nat, 0 < i → i < s.items.length → s.selected = s.items[i]? →
        (selectPrev s).selected = s.items[i - 1]?) ∧
    (s.selected = none → 2 ≤ s.items.length → (selectPrev s).selected = s.items[0]?) ∧
    (s.selected = none → s.items.length = 1 → (selectPrev s).selected = none) := by
  refine ⟨?_, ?_, ?_, ?_, ?_⟩
  · intro h0
    simp [selectPrev, h0]
  · intro hpos hsel
    have hlen : ¬s.items.length < 1 := by omega
    simp [selectPrev, hlen, hsel]
  · intro i hi hilen hsel
    have hlen : ¬s.items.length < 1 := by omega
    have hne : ¬s.selected = s.items[0]? := by
      intro h0
      rw [hsel, List.getElem?_eq_getElem hilen, List.getElem?_eq_getElem (by omega)] at h0
      have := hnd.getElem_inj_iff.mp (Option.some_inj.mp h0)
      omega
    simp only [selectPrev, if_neg hlen, if_neg hne]
    exact selectPrevLoop_eq_of_get s.items s.selected hnd (s.items.length - 1) i hsel
      (by omega) (by omega) (by omega)
  · intro hnone h2
    have hlen : ¬s.items.length < 1 := by omega
    have hne : ¬s.selected = s.items[0]? := by
      rw [hnone, List.getElem?_eq_getElem (by omega)]
      simp
    simp only [selectPrev, if_neg hlen, if_neg hne]
    rw [hnone]
    exact selectPrevLoop_none s.items (s.items.length - 1) (by omega) (by omega)
  · intro hnone h1
    have hlen : ¬s.items.length < 1 := by omega
    have hne : ¬s.selected = s.items[0]? := by
      rw [hnone, List.getElem?_eq_getElem (by omega)]
      simp
    simp only [selectPrev, if_neg hlen, if_neg hne]
    rw [hnone, h1]
    rfl

/-- C4 witness: with the selection on the first of two items, `selectPrev`
wraps to the last. -/
theorem selectPrev_spec_witness :
    (selectPrev { initialState with items := [itemA, itemB], selected := some itemA }).selected
      = some itemB := by
  have h := (selectPrev_spec { initialState with items := [itemA, itemB], selected := some itemA }
      (by decide)).2.1 (by decide) (by decide)
  simpa using h

/-- C5 counterexample, falsifying the claim at two concrete inputs, one per
hypothesis the amendment adds.  (a) On the one-item non-empty list with NO
starting selection, `selectNext` then `selectPrev` ends with the item
selected instead of restoring the empty selection.  (b) On the non-empty
duplicate list `[itemA, itemB, itemA]` starting from the selected element
`itemB`, `selectNext` finds `itemB` at index 1 and moves to `items[2] =
itemA`; `selectPrev` then sees `itemA === items[0]` and wraps to the last
element, ending at `itemA ≠ itemB` instead of restoring `itemB`. -/
theorem roundtrip_claim_counterexample :
    (oneItemNoSel.selected = none ∧
      (selectPrev (selectNext oneItemNoSel)).selected = some itemA) ∧
    (dupListSelB.selected = some itemB ∧ itemB ∈ dupListSelB.items ∧
      (selectPrev (selectNext dupListSelB)).selected = some itemA ∧ itemA ≠ itemB) := by
  exact ⟨⟨rfl, by decide⟩, ⟨rfl, by decide, by decide, by decide⟩⟩

/-- C5 amended: for every duplicate-free non-empty items list and every
starting selection that is an element of the list, `selectNext` followed by
`selectPrev` returns the widget to exactly its starting state. -/
theorem selectNext_selectPrev_roundtrip (s : WState) (hnd : s.items.Nodup)
    (hsel : ∃ x ∈ s.items, s.selected = some x) :
    selectPrev (selectNext s) = s := by
  obtain ⟨x, hmem, hx⟩ := hsel
  obtain ⟨i, hilen, hieq⟩ := List.mem_iff_getElem.mp hmem
  have hlen : ¬s.items.length < 1 := by omega
  have hselq : s.selected = s.items[i]? := by
    rw [hx, List.getElem?_eq_getElem hilen, hieq]
  by_cases hlast : i = s.items.length - 1
  · -- selection on the last item: selectNext wraps to the first,
    -- selectPrev wraps back to the last
    have hcond : s.selected = none ∨ s.selected = s.items[s.items.length - 1]? := by
      right
      rw [hselq, hlast]
    have hnext : selectNext s = { s with selected := s.items[0]? } := by
      simp only [selectNext, if_neg hlen]
      rw [if_pos hcond]
    rw [hnext]
    have hprev0 : ({ s with selected := s.items[0]? } : WState).selected
        = s.items[0]? := rfl
    simp only [selectPrev, if_neg hlen, if_pos hprev0]
    have : s.items[s.items.length - 1]? = s.selected := by rw [hselq, hlast]
    rw [this, if_pos trivial]
  · -- selection at index i < length - 1: selectNext moves to i + 1,
    -- selectPrev moves back to i
    have hilt : i < s.items.length - 1 := by omega
    have hnotlast : ¬s.selected = s.items[s.items.length - 1]? := by
      intro h0
      rw [hselq, List.getElem?_eq_getElem hilen,
        List.getElem?_eq_getElem (by omega)] at h0
      exact hlast (hnd.getElem_inj_iff.mp (Option.some_inj.mp h0))
    have hnotnone : ¬(s.selected = none ∨ s.selected = s.items[s.items.length - 1]?) := by
      rintro (h0 | h0)
      · rw [hx] at h0
        exact Option.noConfusion h0
      · exact hnotlast h0
    have hnext : selectNext s = { s with selected := s.items[i + 1]? } := by
      simp only [selectNext, if_neg hlen, if_neg hnotnone, selectNextLoop]
      rw [selectNextLoopGo_eq_of_get s.items s.selected hnd (s.items.length - 1 - 0) 0 i
        hselq (by omega) hilt (by omega)]
    rw [hnext]
    have hne0 : ¬({ s with selected := s.items[i + 1]? } : WState).selected
        = s.items[0]? := by
      simp only
      intro h0
      rw [List.getElem?_eq_getElem (by omega : i + 1 < s.items.length),
        List.getElem?_eq_getElem (by omega)] at h0
      have := hnd.getElem_inj_iff.mp (Option.some_inj.mp h0)
      omega
    simp only [selectPrev, if_neg hlen, if_neg hne0]
    rw [selectPrevLoop_eq_of_get s.items (s.items[i + 1]?) hnd (s.items.length - 1) (i + 1)
      rfl (by omega) (by omega) (by omega)]
    have hfin : s.items[i + 1 - 1]? = s.selected := by
      simp only [Nat.add_sub_cancel]
      exact hselq.symm
    rw [hfin]

/-- C5 witness: with the second of two items selected, next-then-prev comes
back to it. -/
theorem selectNext_selectPrev_roundtrip_witness :
    selectPrev (selectNext { initialState with items := [itemA, itemB], selected := some itemB })
      = { initialState with items := [itemA, itemB], selected := some itemB } :=
  selectNext_selectPrev_roundtrip
    { initialState with items := [itemA, itemB], selected := some itemB }
    (by decide) ⟨itemB, by decide, rfl⟩

/-- C8: every state-mutating operation — `clear`, `selectNext`, `selectPrev`
and the fetch result callback — preserves the invariant that `selected`,
when present, is an element of `items` by reference identity. -/
theorem state_ops_preserve_selected_membership (cfg : Config) (req : FetchRequest)
    (res : Option (List Item)) (s : WState) (h : SelInv s) :
    SelInv (clear s) ∧ SelInv (selectNext s) ∧ SelInv (selectPrev s) ∧
      SelInv (resultCallback cfg req res s) :=
  ⟨selInv_clear s, selInv_selectNext s h, selInv_selectPrev s h,
    selInv_resultCallback cfg req res s h⟩

/-- C8 witness: the invariant is preserved from a concrete state with the
single item selected. -/
theorem state_ops_preserve_selected_membership_witness :
    SelInv (clear oneItemSel) ∧ SelInv (selectNext oneItemSel) ∧
      SelInv (selectPrev oneItemSel) ∧
      SelInv (resultCallback (configOf {}) reqFix none oneItemSel) :=
  state_ops_preserve_selected_membership (configOf {}) reqFix none oneItemSel
    (by
      intro x hx
      rw [show oneItemSel.selected = some itemA from rfl] at hx
      cases hx
      decide)
